import Mathlib

set_option maxRecDepth 100000
set_option exponentiation.threshold 2000

/-!
Verification of the 2-D vector value type `Vector2` (src/src/vector2.rs).

The source operates on Rust `f64` values, whose arithmetic (`+`, `-`, `*`,
`/`, `==`, `sqrt`) is IEEE-754 binary64 with round-to-nearest-even, which
Rust guarantees bit-exactly.  We embed binary64 as the inductive type `F64`
below: `finite s m e` denotes the value `(-1)^s * m * 2^e` (canonically with
`m` odd), `zero s` the two signed zeros, `inf s` the two infinities, and
`nan` the (collapsed) NaNs.  Every arithmetic operation computes the exact
rational result and rounds it with round-to-nearest-even, including gradual
underflow to subnormals, underflow to zero, and overflow to infinity, which
is exactly the IEEE-754 semantics of the hardware operations the Rust code
compiles to.  All definitions are executable, so concrete claims are settled
by `decide`.
-/

/-- Binary64 values: NaN (payloads collapsed), signed infinities, signed
zeros, and nonzero finite values `(-1)^s * m * 2^e`.  The sign `true` means
negative.  Values produced by the rounding functions below are canonical
(`m` odd), so Lean's structural equality on canonical values coincides with
bit equality of the corresponding doubles (modulo NaN payloads). -/
inductive F64 where
  | nan : F64
  | inf : Bool → F64
  | zero : Bool → F64
  | finite : Bool → Nat → Int → F64
deriving DecidableEq

/-- Fuel-driven power of two (binary recursion, kernel-reducible). -/
def pow2F : Nat → Nat → Nat
  | 0, _ => 1
  | f + 1, k =>
    if k = 0 then 1
    else
      let h := pow2F f (k / 2)
      if k % 2 = 0 then h * h else 2 * (h * h)

/-- The value `2 ^ k`, computed by kernel-friendly binary recursion. -/
def pow2 (k : Nat) : Nat := pow2F k k

/-- Fuel-driven doubling search for an exponent `h` with `n < 2 ^ h`. -/
def log2Hi : Nat → Nat → Nat → Nat
  | 0, h, _ => h
  | f + 1, h, n => if n < pow2 h then h else log2Hi f (h * 2) n

/-- Fuel-driven binary search for the floor of the base-2 logarithm,
maintaining `pow2 lo ≤ n < pow2 hi`. -/
def log2Search : Nat → Nat → Nat → Nat → Nat
  | 0, lo, _, _ => lo
  | f + 1, lo, hi, n =>
    if hi ≤ lo + 1 then lo
    else
      let mid := (lo + hi) / 2
      if pow2 mid ≤ n then log2Search f mid hi n else log2Search f lo mid n

/-- For `n ≥ 1`, the floor of the base-2 logarithm of `n` (and `0` at `0`);
the fuel of 64 covers every `n < 2 ^ 2 ^ 64`. -/
def nlog2 (n : Nat) : Nat :=
  if n = 0 then 0 else log2Search 64 0 (log2Hi 64 1 n) n

/-- Fuel-driven Newton iteration for the integer square root, starting from
a guess that is at least the true root and monotonically decreasing; at the
fixpoint the guess is the floor of the square root. -/
def isqrtAux (n : Nat) : Nat → Nat → Nat
  | 0, g => g
  | f + 1, g =>
    let g' := (g + n / g) / 2
    if g' < g then isqrtAux n f g' else g

/-- Floor of the square root of a natural number (kernel-reducible): Newton
iteration from the power-of-two guess just above the root, which converges
quadratically, so the fuel of 128 is ample for every `n < 2 ^ 2 ^ 64`. -/
def isqrt (n : Nat) : Nat :=
  if n ≤ 1 then n else isqrtAux n 128 (pow2 (nlog2 n / 2 + 1))

/-- Strip the trailing zero bits of `m` (fuel-driven). -/
def normFAux : Nat → Nat → Int → Nat × Int
  | 0, m, e => (m, e)
  | f + 1, m, e => if m % 2 = 1 ∨ m = 0 then (m, e) else normFAux f (m / 2) (e + 1)

/-- Canonicalize a nonzero finite value `(-1)^s * m * 2^e` to odd `m`. -/
def normF (s : Bool) (m : Nat) (e : Int) : F64 :=
  let p := normFAux m m e
  .finite s p.1 p.2

/-- Package a rounded significand `k` at ulp exponent `u` into an `F64`:
zero when the significand vanished, infinity on overflow (magnitude at
least `2^1024`), and a canonicalized finite value otherwise. -/
def roundFin (s : Bool) (k : Nat) (u : Int) : F64 :=
  if k = 0 then .zero s
  else if (1024 : Int) ≤ (nlog2 k : Int) + u then .inf s
  else normF s k u

/-- Round the positive rational `num / den` (`den ≥ 1`) to binary64 with
round-to-nearest-even, applying the sign `s`: the IEEE-754 rounding of an
exact real result, with gradual underflow and overflow to infinity. -/
def roundsub (s : Bool) (num den : Nat) : F64 :=
  if num = 0 then .zero s
  else
    let L : Int := (nlog2 num : Int) - (nlog2 den : Int)
    let ge : Bool :=
      if 0 ≤ L then decide (den * pow2 L.toNat ≤ num)
      else decide (den ≤ num * pow2 (-L).toNat)
    let e : Int := if ge then L else L - 1
    let u : Int := if -1022 ≤ e then e - 52 else -1074
    let N := if u ≤ 0 then num * pow2 (-u).toNat else num
    let D := if u ≤ 0 then den else den * pow2 u.toNat
    let k := N / D
    let r := N % D
    let k' :=
      if D < 2 * r then k + 1
      else if 2 * r < D then k
      else if k % 2 = 0 then k else k + 1
    roundFin s k' u

/-- Round the signed dyadic value `(-1)^s * M * 2^g` to binary64. -/
def roundDy (s : Bool) (M : Nat) (g : Int) : F64 :=
  if 0 ≤ g then roundsub s (M * pow2 g.toNat) 1
  else roundsub s M (pow2 (-g).toNat)

/-- Signed integer `(-1)^s * n`. -/
def sgnInt (s : Bool) (n : Nat) : Int := if s then -(n : Int) else (n : Int)

/-- IEEE-754 binary64 addition (model of Rust `f64 +`): the exact sum,
rounded to nearest-even; an exact zero sum yields `+0`, and `-0 + -0 = -0`. -/
def f64add : F64 → F64 → F64
  | .nan, _ => .nan
  | _, .nan => .nan
  | .inf s, .inf t => if s = t then .inf s else .nan
  | .inf s, _ => .inf s
  | _, .inf t => .inf t
  | .zero s, .zero t => .zero (s && t)
  | .zero _, y => y
  | x, .zero _ => x
  | .finite s m e, .finite t n f =>
    let g := min e f
    let S := sgnInt s m * (pow2 (e - g).toNat : Int) + sgnInt t n * (pow2 (f - g).toNat : Int)
    if S = 0 then .zero false
    else roundDy (decide (S < 0)) S.natAbs g

/-- IEEE-754 binary64 negation (model of Rust unary `-`): flips the sign. -/
def f64neg : F64 → F64
  | .nan => .nan
  | .inf s => .inf (!s)
  | .zero s => .zero (!s)
  | .finite s m e => .finite (!s) m e

/-- IEEE-754 binary64 subtraction (model of Rust `f64 -`): per IEEE-754,
`x - y` is `x + (-y)`. -/
def f64sub (a b : F64) : F64 := f64add a (f64neg b)

/-- IEEE-754 binary64 multiplication (model of Rust `f64 *`): the exact
product rounded to nearest-even; `∞ * 0 = NaN`; signs are xor-ed. -/
def f64mul : F64 → F64 → F64
  | .nan, _ => .nan
  | _, .nan => .nan
  | .inf s, .inf t => .inf (xor s t)
  | .inf _, .zero _ => .nan
  | .zero _, .inf _ => .nan
  | .inf s, .finite t _ _ => .inf (xor s t)
  | .finite s _ _, .inf t => .inf (xor s t)
  | .zero s, .zero t => .zero (xor s t)
  | .zero s, .finite t _ _ => .zero (xor s t)
  | .finite s _ _, .zero t => .zero (xor s t)
  | .finite s m e, .finite t n f => roundDy (xor s t) (m * n) (e + f)

/-- IEEE-754 binary64 division (model of Rust `f64 /`): the exact quotient
rounded to nearest-even; `x / 0 = ±∞` for finite nonzero `x`, `0 / 0 = NaN`,
`∞ / ∞ = NaN`, `x / ∞ = ±0` for finite `x`. -/
def f64div : F64 → F64 → F64
  | .nan, _ => .nan
  | _, .nan => .nan
  | .inf _, .inf _ => .nan
  | .inf s, .zero t => .inf (xor s t)
  | .inf s, .finite t _ _ => .inf (xor s t)
  | .zero _, .zero _ => .nan
  | .finite s _ _, .zero t => .inf (xor s t)
  | .zero s, .inf t => .zero (xor s t)
  | .zero s, .finite t _ _ => .zero (xor s t)
  | .finite s _ _, .inf t => .zero (xor s t)
  | .finite s m e, .finite t n f =>
    if n = 0 then .inf (xor s t)
    else if m = 0 then .zero (xor s t)
    else
      let g := e - f
      if 0 ≤ g then roundsub (xor s t) (m * pow2 g.toNat) n
      else roundsub (xor s t) m (n * pow2 (-g).toNat)

/-- Correctly rounded square root of the positive value `m * 2^e` (`m ≥ 1`):
the result exponent and significand are computed exactly over rationals, and
ties cannot occur except on exact dyadic roots, which are handled. -/
def sqrtPos (m : Nat) (e : Int) : F64 :=
  let B : Int := (nlog2 m : Int) + 1
  let Lv : Int := B - 1 + e
  let er : Int := Int.fdiv Lv 2
  let u : Int := er - 52
  let d : Int := e - 2 * u
  let p := if 0 ≤ d then m * pow2 d.toNat else m
  let q := if 0 ≤ d then 1 else pow2 (-d).toNat
  let s0 := isqrt (p * q) / q
  let w := 2 * s0 + 1
  let t := q * (w * w)
  let k :=
    if t < 4 * p then s0 + 1
    else if 4 * p < t then s0
    else if s0 % 2 = 0 then s0 else s0 + 1
  roundFin false k u

/-- IEEE-754 binary64 square root (model of Rust `f64::sqrt`, which Rust
guarantees correctly rounded): `sqrt NaN = NaN`, `sqrt (+∞) = +∞`,
`sqrt (±0) = ±0`, `sqrt` of a negative value is NaN. -/
def f64sqrt : F64 → F64
  | .nan => .nan
  | .inf s => if s then .nan else .inf false
  | .zero s => .zero s
  | .finite s m e =>
    if m = 0 then .zero s
    else if s then .nan
    else sqrtPos m e

/-- Model of Rust `f64::powi(2)`: squaring by self-multiplication. -/
def powi2 (x : F64) : F64 := f64mul x x

/-- Equality of two dyadic magnitudes `m * 2^e` and `n * 2^f`. -/
def dyEq (m : Nat) (e : Int) (n : Nat) (f : Int) : Bool :=
  if e ≤ f then m == n * pow2 (f - e).toNat else m * pow2 (e - f).toNat == n

/-- IEEE-754 binary64 equality (model of Rust `f64 ==` / `PartialEq`):
NaN compares unequal to everything, `+0 == -0`, and finite values compare
by numeric value. -/
def f64beq : F64 → F64 → Bool
  | .nan, _ => false
  | _, .nan => false
  | .inf s, .inf t => s == t
  | .inf _, _ => false
  | _, .inf _ => false
  | .zero _, .zero _ => true
  | .zero _, .finite _ n _ => n == 0
  | .finite _ m _, .zero _ => m == 0
  | .finite s m e, .finite t n f => dyEq m e n f && (s == t || m == 0)

/-- Holds of finite doubles (including the zeros): not NaN, not infinite. -/
def F64.isFinite : F64 → Bool
  | .finite _ _ _ => true
  | .zero _ => true
  | _ => false

/-- The 2-D vector of src/src/vector2.rs: `pub struct Vector2 { x: f64, y: f64 }`. -/
structure Vector2 where
  x : F64
  y : F64
deriving DecidableEq

/-- Rust's `Result<Vector2, Vector2>`: the return type of `Vector2::unit`. -/
inductive VResult where
  | ok : Vector2 → VResult
  | err : Vector2 → VResult
deriving DecidableEq

/-- The derived `PartialEq` of `Vector2`: componentwise IEEE `f64` equality. -/
def vecBeq (a b : Vector2) : Bool := f64beq a.x b.x && f64beq a.y b.y

namespace Vector2

/-- `Vector2::new(x, y)`: stores the two components verbatim. -/
def new (x y : F64) : Vector2 := ⟨x, y⟩

/-- `Vector2::origin()`: the vector `(0.0, 0.0)`. -/
def origin : Vector2 := ⟨.zero false, .zero false⟩

/-- The `ops::Add` impl: componentwise sum. -/
def addV (a b : Vector2) : Vector2 := ⟨f64add a.x b.x, f64add a.y b.y⟩

/-- The `ops::Sub` impl: componentwise difference. -/
def subV (a b : Vector2) : Vector2 := ⟨f64sub a.x b.x, f64sub a.y b.y⟩

/-- `Vector2::norm()`: `(self.x.powi(2) + self.y.powi(2)).sqrt()`. -/
def norm (v : Vector2) : F64 := f64sqrt (f64add (powi2 v.x) (powi2 v.y))

/-- `Vector2::is_zero()`: `self.norm() == 0.0`. -/
def is_zero (v : Vector2) : Bool := f64beq (norm v) (.zero false)

/-- `Vector2::multi(c)`: componentwise multiplication by the scalar `c`. -/
def multi (v : Vector2) (c : F64) : Vector2 := ⟨f64mul v.x c, f64mul v.y c⟩

/-- `Vector2::divide(c)`: componentwise division by the scalar `c`
(`self.x / c`, `self.y / c`), with no check for `c = 0`. -/
def divide (v : Vector2) (c : F64) : Vector2 := ⟨f64div v.x c, f64div v.y c⟩

/-- `Vector2::unit()`: `Err(origin)` when `self.norm() == 0.0`, otherwise
`Ok(self.divide(n))` where `n` is the norm. -/
def unit (v : Vector2) : VResult :=
  let n := norm v
  if f64beq n (.zero false) then .err origin else .ok (divide v n)

end Vector2

/-- The positive double nearest `num / den` (how Rust parses a positive
decimal literal: correctly rounded to nearest-even). -/
def litPos (num den : Nat) : F64 := roundsub false num den

/-- The double `1.0`. -/
def lit1 : F64 := litPos 1 1

/-- The double `2.0`. -/
def lit2 : F64 := litPos 2 1

/-- The double `3.0`. -/
def lit3 : F64 := litPos 3 1

/-- The double `4.0`. -/
def lit4 : F64 := litPos 4 1

/-- The double `5.0`. -/
def lit5 : F64 := litPos 5 1

/-- The double `6.0`. -/
def lit6 : F64 := litPos 6 1

/-- The double `8.0`. -/
def lit8 : F64 := litPos 8 1

/-- The double `1.5`. -/
def lit1_5 : F64 := litPos 3 2

/-- The double `1e200` (nearest double to `10^200`). -/
def lit1e200 : F64 := litPos (10 ^ 200) 1

/-- The double `1e-300` (nearest double to `10^(-300)`). -/
def lit1em300 : F64 := litPos 1 (10 ^ 300)

/-- The `fmt::Display` impl of `Vector2`, which executes
`write!(f, "(x: {}, y: {})", self.x, self.y)`: parametric in the rendering
`r` that `{}` applies to an `f64` (Rust std's default decimal rendering,
which is library code outside this repository). -/
def displayFmt (r : F64 → String) (v : Vector2) : String :=
  "(x: " ++ r v.x ++ ", y: " ++ r v.y ++ ")"

/-- Modelled from the spec: the rendering the spec claims for the display
operation — `"(x, y)"`, an opening parenthesis, the rendering of `x`, a
comma and space, the rendering of `y`, and a closing parenthesis. -/
def specFmt (r : F64 → String) (v : Vector2) : String :=
  "(" ++ r v.x ++ ", " ++ r v.y ++ ")"

/-- Modelled from the spec: Rust std's default decimal rendering of an
`f64` (what `{}` produces), on the nonnegative integral values exercised
here — the plain digits with no decimal point (`1.0` renders as `"1"`).
Cases not exercised by any claim render a placeholder. -/
def renderDec : F64 → String
  | .zero s => if s then "-0" else "0"
  | .finite s m e =>
    (if s then "-" else "") ++ (if 0 ≤ e then Nat.repr (m * pow2 e.toNat) else "?")
  | .nan => "NaN"
  | .inf s => if s then "-inf" else "inf"

/-! ## Helper lemmas (shared) -/

/-- NaN absorbs addition on the right. -/
theorem f64add_nan_right (x : F64) : f64add x .nan = .nan := by
  cases x <;> rfl

/-- Packaging a rounded magnitude with sign `false` never produces a NaN,
a negative value, or a negative zero. -/
theorem roundFin_false_shape (k : Nat) (u : Int) :
    roundFin false k u = .zero false ∨
    (∃ m e, roundFin false k u = .finite false m e) ∨
    roundFin false k u = .inf false := by
  unfold roundFin normF
  split_ifs <;> simp

/-- Rounding a nonnegative value with sign `false` never produces a NaN, a
negative value, or a negative zero: the shape of `roundsub false`. -/
theorem roundsub_false_shape (num den : Nat) :
    roundsub false num den = .zero false ∨
    (∃ m e, roundsub false num den = .finite false m e) ∨
    roundsub false num den = .inf false := by
  unfold roundsub
  split
  · exact Or.inl rfl
  · exact roundFin_false_shape _ _

/-- The shape of `roundDy false`: never NaN, negative, or negative zero. -/
theorem roundDy_false_shape (M : Nat) (g : Int) :
    roundDy false M g = .zero false ∨
    (∃ m e, roundDy false M g = .finite false m e) ∨
    roundDy false M g = .inf false := by
  unfold roundDy
  split
  · exact roundsub_false_shape _ _
  · exact roundsub_false_shape _ _

/-- Squaring an infinity gives positive infinity. -/
theorem powi2_inf (s : Bool) : powi2 (.inf s) = .inf false := by
  cases s <;> rfl

/-- Squaring any non-NaN double gives a nonnegative double: a positive
zero, a positive finite value, or positive infinity. -/
theorem powi2_shape (x : F64) (h : x ≠ .nan) :
    powi2 x = .zero false ∨ (∃ m e, powi2 x = .finite false m e) ∨
    powi2 x = .inf false := by
  cases x with
  | nan => exact absurd rfl h
  | inf s => exact Or.inr (Or.inr (powi2_inf s))
  | zero s => cases s <;> exact Or.inl rfl
  | finite s m e =>
    cases s <;> simpa [powi2, f64mul] using roundDy_false_shape (m * m) (e + e)

/-- Adding positive infinity on the left to any nonnegative double gives
positive infinity. -/
theorem f64add_posinf_left (x : F64)
    (h : x = .zero false ∨ (∃ m e, x = .finite false m e) ∨ x = .inf false) :
    f64add (.inf false) x = .inf false := by
  rcases h with h | ⟨m, e, h⟩ | h <;> subst h <;> rfl

/-- Adding positive infinity on the right to any nonnegative double gives
positive infinity. -/
theorem f64add_posinf_right (x : F64)
    (h : x = .zero false ∨ (∃ m e, x = .finite false m e) ∨ x = .inf false) :
    f64add x (.inf false) = .inf false := by
  rcases h with h | ⟨m, e, h⟩ | h <;> subst h <;> rfl

/-- Subtracting any finite double (including the zeros) from itself gives
the positive zero, exactly as IEEE-754 round-to-nearest prescribes. -/
theorem f64sub_self_finite (x : F64) (h : x.isFinite = true) :
    f64sub x x = .zero false := by
  cases x with
  | nan => simp [F64.isFinite] at h
  | inf s => simp [F64.isFinite] at h
  | zero s => cases s <;> rfl
  | finite s m e =>
    show f64add _ _ = _
    cases s <;>
      simp [f64neg, f64add, sgnInt, min_self, Int.sub_self,
        show pow2 0 = 1 from rfl]

/-- Multiplying any finite double by the positive literal zero gives a
zero, which compares IEEE-equal to `0.0`. -/
theorem f64mul_zero_finite (x : F64) (h : x.isFinite = true) :
    f64beq (f64mul x (.zero false)) (.zero false) = true := by
  cases x with
  | nan => simp [F64.isFinite] at h
  | inf s => simp [F64.isFinite] at h
  | zero s => cases s <;> rfl
  | finite s m e => cases s <;> rfl

/-- Dividing any double by the positive literal zero gives NaN or an
infinity, never a finite value. -/
theorem f64div_zero_shape (x : F64) :
    f64div x (.zero false) = .nan ∨ f64div x (.zero false) = .inf false ∨
    f64div x (.zero false) = .inf true := by
  cases x with
  | nan => exact Or.inl rfl
  | inf s => cases s
             · exact Or.inr (Or.inl rfl)
             · exact Or.inr (Or.inr rfl)
  | zero s => exact Or.inl rfl
  | finite s m e => cases s
                    · exact Or.inr (Or.inl rfl)
                    · exact Or.inr (Or.inr rfl)

/-! ## Claim theorems -/

/-- C1: for every vector `v`, `unit(v)` fails exactly when
`norm(v) == 0.0`, and in that case returns the zero vector (`origin`) as
the error payload; for every `v` with `norm(v) != 0.0`, `unit(v)` succeeds
and its success value equals `divide(v, norm(v))`.  (No other operation of
the type can fail: `addV`, `subV`, `norm`, `is_zero`, `multi` and `divide`
are plain total functions — only `unit` returns a `VResult`.) -/
theorem vector2_unit_spec (v : Vector2) :
    (f64beq (Vector2.norm v) (F64.zero false) = true ∧
      Vector2.unit v = .err Vector2.origin) ∨
    (f64beq (Vector2.norm v) (F64.zero false) = false ∧
      Vector2.unit v = .ok (Vector2.divide v (Vector2.norm v))) := by
  cases h : f64beq (Vector2.norm v) (F64.zero false)
  · exact Or.inr ⟨rfl, by simp [Vector2.unit, h]⟩
  · exact Or.inl ⟨rfl, by simp [Vector2.unit, h]⟩

/-- C2: `norm` computes `sqrt(x² + y²)` in IEEE-754 double precision; it is
NaN whenever either component is NaN; it is `+∞` whenever either component
is `±∞` and the other is not NaN; and `norm(Vector(3, 4))` is exactly
`5.0`. -/
theorem vector2_norm_spec :
    (∀ v : Vector2,
      Vector2.norm v = f64sqrt (f64add (powi2 v.x) (powi2 v.y))) ∧
    (∀ v : Vector2, v.x = F64.nan ∨ v.y = F64.nan →
      Vector2.norm v = F64.nan) ∧
    (∀ v : Vector2,
      ((v.x = F64.inf false ∨ v.x = F64.inf true) ∧ v.y ≠ F64.nan) ∨
      ((v.y = F64.inf false ∨ v.y = F64.inf true) ∧ v.x ≠ F64.nan) →
      Vector2.norm v = F64.inf false) ∧
    Vector2.norm (Vector2.new lit3 lit4) = lit5 := by
  refine ⟨fun _ => rfl, ?_, ?_, by decide⟩
  · rintro v (hx | hy)
    · simp [Vector2.norm, hx, powi2, f64mul, f64sqrt,
        show ∀ y, f64add .nan y = .nan from fun y => by cases y <;> rfl]
    · simp [Vector2.norm, hy, powi2, f64mul, f64sqrt, f64add_nan_right]
  · rintro v (⟨hx, hy⟩ | ⟨hy, hx⟩)
    · have h2 : powi2 v.x = F64.inf false := by
        rcases hx with h | h <;> rw [h] <;> exact powi2_inf _
      rw [Vector2.norm, h2, f64add_posinf_left _ (powi2_shape v.y hy)]
      rfl
    · have h2 : powi2 v.y = F64.inf false := by
        rcases hy with h | h <;> rw [h] <;> exact powi2_inf _
      rw [Vector2.norm, h2, f64add_posinf_right _ (powi2_shape v.x hx)]
      rfl

/-- Witness for C2: the NaN and infinity propagation clauses at concrete
vectors, and the exact value at `(3, 4)`. -/
theorem vector2_norm_spec_witness :
    Vector2.norm (Vector2.new F64.nan lit4) = F64.nan ∧
    Vector2.norm (Vector2.new (F64.inf true) lit4) = F64.inf false :=
  ⟨vector2_norm_spec.2.1 _ (Or.inl rfl),
   vector2_norm_spec.2.2.1 _ (Or.inl ⟨Or.inr rfl, by decide⟩)⟩

/-- C3 counterexample: `divide` does not multiply by the double reciprocal
of the scalar.  At `v = (5, 5)` and `c = 3`, the first component of
`divide(v, c)` is `5/3` (last bit up), while `5 * (1/3)` rounds to the
neighbouring double below, so the two differ. -/
theorem vector2_divide_not_reciprocal :
    f64beq (Vector2.divide (Vector2.new lit5 lit5) lit3).x
        (f64mul lit5 (f64div lit1 lit3)) = false ∧
    (Vector2.divide (Vector2.new lit5 lit5) lit3).x =
      F64.finite false 7505999378950827 (-52) ∧
    f64mul lit5 (f64div lit1 lit3) =
      F64.finite false 3752999689475413 (-51) := by
  decide

/-- C3 amended: `divide(v, c)` divides each component of `v` directly by
`c` (IEEE-754 double division, not multiplication by a reciprocal);
`divide` performs no check for `c = 0`, and dividing by zero yields
components that are each `±∞` or NaN per floating-point division
semantics; `divide(Vector(3,4), 2.0) == Vector(1.5, 2.0)`. -/
theorem vector2_divide_spec :
    (∀ (v : Vector2) (c : F64),
      Vector2.divide v c = ⟨f64div v.x c, f64div v.y c⟩) ∧
    (∀ v : Vector2,
      ((Vector2.divide v (F64.zero false)).x = F64.nan ∨
       (Vector2.divide v (F64.zero false)).x = F64.inf false ∨
       (Vector2.divide v (F64.zero false)).x = F64.inf true) ∧
      ((Vector2.divide v (F64.zero false)).y = F64.nan ∨
       (Vector2.divide v (F64.zero false)).y = F64.inf false ∨
       (Vector2.divide v (F64.zero false)).y = F64.inf true)) ∧
    Vector2.divide (Vector2.new lit3 lit4) lit2 = Vector2.new lit1_5 lit2 := by
  exact ⟨fun _ _ => rfl,
    fun v => ⟨f64div_zero_shape v.x, f64div_zero_shape v.y⟩,
    by decide⟩

/-- C4 (refuting evaluation): at the failing input `(1e200, 0)` — a finite
nonzero vector, so `unit` succeeds — the success value of `unit` is
`(0, 0)`, whose norm is exactly `0.0` and in particular not equal (nor
anywhere near) `1.0`. -/
theorem vector2_unit_norm_not_one :
    f64beq (Vector2.norm (Vector2.new lit1e200 (F64.zero false)))
        (F64.zero false) = false ∧
    Vector2.unit (Vector2.new lit1e200 (F64.zero false)) =
      .ok Vector2.origin ∧
    Vector2.norm Vector2.origin = F64.zero false ∧
    f64beq (Vector2.norm Vector2.origin) lit1 = false := by
  decide

/-- C5: the vector `(1e200, 0)` has finite components and is nonzero, yet
the squaring inside `norm` overflows so that `norm` returns `+∞`, and
`unit` on it succeeds with `Ok(Vector(0, 0))` — a "unit" vector whose norm
is `0`, not `1`. -/
theorem vector2_unit_overflow :
    F64.isFinite lit1e200 = true ∧
    F64.isFinite (F64.zero false) = true ∧
    f64beq lit1e200 (F64.zero false) = false ∧
    powi2 lit1e200 = F64.inf false ∧
    Vector2.norm (Vector2.new lit1e200 (F64.zero false)) = F64.inf false ∧
    Vector2.unit (Vector2.new lit1e200 (F64.zero false)) =
      .ok Vector2.origin ∧
    Vector2.norm Vector2.origin = F64.zero false := by
  decide

/-- C6: `is_zero(v)` returns true exactly when `norm(v) == 0.0` under IEEE
equality; `is_zero(Vector(0,0))` is true, `is_zero(Vector(3,4))` is false,
and `(1e-300, 1e-300)`, whose computed norm underflows to exactly `0.0`,
is classified as zero. -/
theorem vector2_is_zero_spec :
    (∀ v : Vector2,
      Vector2.is_zero v = f64beq (Vector2.norm v) (F64.zero false)) ∧
    Vector2.is_zero Vector2.origin = true ∧
    Vector2.is_zero (Vector2.new lit3 lit4) = false ∧
    Vector2.is_zero (Vector2.new lit1em300 lit1em300) = true := by
  exact ⟨fun _ => rfl, by decide, by decide, by decide⟩

/-- C8 counterexample: with no finiteness restriction the claim fails — at
`a = (∞, 0)`, `subtract(a, a)` has NaN first component (`∞ - ∞ = NaN`), so
it does not equal `origin` under the type's (componentwise IEEE) equality. -/
theorem vector2_sub_self_not_origin :
    vecBeq
      (Vector2.subV (Vector2.new (F64.inf false) (F64.zero false))
        (Vector2.new (F64.inf false) (F64.zero false)))
      Vector2.origin = false ∧
    (Vector2.subV (Vector2.new (F64.inf false) (F64.zero false))
        (Vector2.new (F64.inf false) (F64.zero false))).x = F64.nan := by
  decide

/-- C8 amended: for every vector `a` both of whose components are finite
(including the zeros), `subtract(a, a)` equals `origin()` exactly under
the type's structural (componentwise IEEE) equality. -/
theorem vector2_sub_self_spec (a : Vector2)
    (hx : a.x.isFinite = true) (hy : a.y.isFinite = true) :
    vecBeq (Vector2.subV a a) Vector2.origin = true := by
  show (f64beq (f64sub a.x a.x) (F64.zero false) &&
    f64beq (f64sub a.y a.y) (F64.zero false)) = true
  rw [f64sub_self_finite a.x hx, f64sub_self_finite a.y hy]
  rfl

/-- Witness for C8 amended: the finite vector `(3, 4)`. -/
theorem vector2_sub_self_spec_witness :
    vecBeq (Vector2.subV (Vector2.new lit3 lit4) (Vector2.new lit3 lit4))
      Vector2.origin = true :=
  vector2_sub_self_spec (Vector2.new lit3 lit4) (by decide) (by decide)

/-- C9 counterexample: scaling by `c = 0` does not yield `origin` for every
vector — at `v = (∞, 0)`, `scale(v, 0)` has NaN first component
(`∞ * 0 = NaN`), which is not equal to `origin` under the type's equality. -/
theorem vector2_multi_zero_not_origin :
    vecBeq
      (Vector2.multi (Vector2.new (F64.inf false) (F64.zero false))
        (F64.zero false))
      Vector2.origin = false ∧
    (Vector2.multi (Vector2.new (F64.inf false) (F64.zero false))
        (F64.zero false)).x = F64.nan := by
  decide

/-- C9 amended: `scale` (source name `multi`) multiplies both components
by `c` and is total; scaling by `c = 0` yields a vector equal to
`Vector(0,0)` under the type's equality for every `v` whose components are
finite; and `scale(Vector(3,4), 2.0) == Vector(6,8)`. -/
theorem vector2_multi_spec :
    (∀ (v : Vector2) (c : F64),
      Vector2.multi v c = ⟨f64mul v.x c, f64mul v.y c⟩) ∧
    (∀ v : Vector2, v.x.isFinite = true → v.y.isFinite = true →
      vecBeq (Vector2.multi v (F64.zero false)) Vector2.origin = true) ∧
    Vector2.multi (Vector2.new lit3 lit4) lit2 = Vector2.new lit6 lit8 := by
  refine ⟨fun _ _ => rfl, ?_, by decide⟩
  intro v hx hy
  show (f64beq (f64mul v.x (F64.zero false)) (F64.zero false) &&
    f64beq (f64mul v.y (F64.zero false)) (F64.zero false)) = true
  rw [f64mul_zero_finite v.x hx, f64mul_zero_finite v.y hy]
  rfl

/-- Witness for C9 amended: the finite vector `(3, 4)` scaled by zero. -/
theorem vector2_multi_spec_witness :
    vecBeq (Vector2.multi (Vector2.new lit3 lit4) (F64.zero false))
      Vector2.origin = true :=
  vector2_multi_spec.2.1 (Vector2.new lit3 lit4) (by decide) (by decide)

/-- C10 counterexample: the display operation labels the components — at
`(1.0, 2.0)` it renders `"(x: 1, y: 2)"`, not the claimed `"(1, 2)"`. -/
theorem vector2_display_labeled :
    displayFmt renderDec (Vector2.new lit1 lit2) = "(x: 1, y: 2)" ∧
    specFmt renderDec (Vector2.new lit1 lit2) = "(1, 2)" ∧
    displayFmt renderDec (Vector2.new lit1 lit2) ≠
      specFmt renderDec (Vector2.new lit1 lit2) := by
  decide

/-- C10 amended: for every vector `v` the display operation renders `v` as
`"(x: X, y: Y)"` — with labels `x: ` and `y: ` before the default decimal
renderings of the components — and this output is always six characters
longer than the spec's claimed `"(X, Y)"` shape, whatever rendering the
components receive, so the two formats never coincide. -/
theorem vector2_display_spec :
    (∀ (r : F64 → String) (v : Vector2),
      displayFmt r v = "(x: " ++ r v.x ++ ", y: " ++ r v.y ++ ")") ∧
    (∀ (r : F64 → String) (v : Vector2),
      (displayFmt r v).length = (specFmt r v).length + 6) := by
  refine ⟨fun _ _ => rfl, fun r v => ?_⟩
  simp only [displayFmt, specFmt, String.length_append,
    show ("(x: " : String).length = 4 from rfl,
    show (", y: " : String).length = 5 from rfl,
    show ("(" : String).length = 1 from rfl,
    show (", " : String).length = 2 from rfl,
    show (")" : String).length = 1 from rfl]
  omega
